import Mathlib

/-!
Verification of the room/session state-management and persistence layer of the
Studio chat-room application, as implemented in `src/services/storageService.ts`
(type declarations in `src/unnamed/part_000`).

The persisted document is modelled at two levels:
  * the store level, where the blob under the fixed key is an `Option String`
    and deserialization is an explicit parse function (`getRooms`);
  * the repository level, where the persisted collection is a `List ChatRoom`
    and every mutating operation maps the collection before the call to the
    collection after it (`saveRoom`, `deleteRoom`, `createRoom`, `addMessage`,
    `addMemo`, `deleteMemo`).
Sources of nondeterminism used by `createRoom` (the crypto UUID, `Date.now()`,
`Math.random()` suffixes, locale date parts) are passed in explicitly through
an `IdEnv` record, so each operation is a pure function of its inputs.
-/

/-- `UserRole` from `src/unnamed/part_000`. -/
inductive UserRole
  | ADMIN
  | PARTICIPANT
deriving DecidableEq

/-- The `type` field of a message: `'text' | 'system'`. -/
inductive MessageType
  | text
  | system
deriving DecidableEq

/-- `Message` from `src/unnamed/part_000`. -/
structure Message where
  id : String
  senderName : String
  role : UserRole
  text : String
  timestamp : Nat
  type : MessageType
deriving DecidableEq

/-- `Memo` from `src/unnamed/part_000`. -/
structure Memo where
  id : String
  title : String
  content : String
  createdAt : Nat
deriving DecidableEq

/-- `ChatRoom` from `src/unnamed/part_000`. -/
structure ChatRoom where
  id : String
  title : String
  password : Option String
  messages : List Message
  memos : List Memo
  createdAt : Nat
  createdBy : String
deriving DecidableEq

/-- Store-level `getRooms` (`src/services/storageService.ts` lines 5-13):
`const stored = localStorage.getItem(ROOMS_KEY); return stored ? JSON.parse(stored) : [];`
wrapped in a try/catch that returns `[]` on any parse error.  The stored blob is
an `Option String` (`getItem` returns null when absent); the JS truthiness test
`stored ?` is false exactly for null and the empty string; `JSON.parse` is an
explicit parameter returning either the decoded room array or an error. -/
def getRooms (parse : String → Except String (List ChatRoom)) :
    Option String → List ChatRoom
  | none => []
  | some stored =>
    if stored = "" then []
    else
      match parse stored with
      | Except.ok rooms => rooms
      | Except.error _ => []

/-- `saveRoom` (`src/services/storageService.ts` lines 20-32): find the index of
the existing entry with the same id; replace it, or append when absent. -/
def saveRoom (room : ChatRoom) (rooms : List ChatRoom) : List ChatRoom :=
  match rooms.findIdx? (fun r => r.id == room.id) with
  | some existingIndex => rooms.set existingIndex room
  | none => rooms ++ [room]

/-- JS `String(x)` applied to a value that is already a string is the identity
conversion; `deleteRoom` applies it to both ids before comparing. -/
def jsString (s : String) : String := s

/-- `deleteRoom` (`src/services/storageService.ts` lines 34-42):
`rooms.filter((r) => String(r.id) !== String(roomId))`. -/
def deleteRoom (roomId : String) (rooms : List ChatRoom) : List ChatRoom :=
  rooms.filter (fun r => jsString r.id != jsString roomId)

/-- The ambient inputs consumed by one `createRoom` call: availability and value
of `crypto.randomUUID()`, `Date.now()`, the `Math.random()` suffixes, and the
local date parts used for the banner text. -/
structure IdEnv where
  cryptoAvailable : Bool
  uuid : String
  nowMs : Nat
  randSuffix : String
  year : Nat
  month0 : Nat
  day : Nat
  msgId : String
deriving DecidableEq

/-- Room-id generation inside `createRoom` (`src/services/storageService.ts`
lines 48-54): prefer `crypto.randomUUID()`, otherwise fall back to
`room_${Date.now()}_${Math.random().toString(36).substring(2, 9)}`. -/
def genRoomId (env : IdEnv) : String :=
  if env.cryptoAvailable then env.uuid
  else "room_" ++ toString env.nowMs ++ "_" ++ env.randSuffix

/-- The localized creation-date banner
`${now.getFullYear()}년 ${now.getMonth() + 1}월 ${now.getDate()}일`
(`getMonth()` is zero-based, hence the `+ 1`). -/
def dateText (env : IdEnv) : String :=
  toString env.year ++ "년 " ++ toString (env.month0 + 1) ++ "월 "
    ++ toString env.day ++ "일"

/-- `createRoom` (`src/services/storageService.ts` lines 44-76): build the new
room seeded with one system message carrying the date banner, persist it with
`saveRoom`, and return it. -/
def createRoom (env : IdEnv) (title : String) (password : Option String)
    (rooms : List ChatRoom) : ChatRoom × List ChatRoom :=
  let newRoom : ChatRoom :=
    { id := genRoomId env
      title := title
      password := password
      messages := [
        { id := env.msgId
          senderName := "System"
          role := UserRole.ADMIN
          text := dateText env
          timestamp := env.nowMs
          type := MessageType.system }]
      memos := []
      createdAt := env.nowMs
      createdBy := "AI Bot" }
  (newRoom, saveRoom newRoom rooms)

/-- `addMessage` (`src/services/storageService.ts` lines 78-85): find the room,
push the message onto its `messages`, save the room; silently do nothing when
the room is missing. -/
def addMessage (roomId : String) (message : Message) (rooms : List ChatRoom) :
    List ChatRoom :=
  match rooms.find? (fun r => r.id == roomId) with
  | some room => saveRoom { room with messages := room.messages ++ [message] } rooms
  | none => rooms

/-- `addMemo` (`src/services/storageService.ts` lines 87-94). -/
def addMemo (roomId : String) (memo : Memo) (rooms : List ChatRoom) :
    List ChatRoom :=
  match rooms.find? (fun r => r.id == roomId) with
  | some room => saveRoom { room with memos := room.memos ++ [memo] } rooms
  | none => rooms

/-- `deleteMemo` (`src/services/storageService.ts` lines 96-103):
`room.memos = room.memos.filter(m => m.id !== memoId)` then `saveRoom`. -/
def deleteMemo (roomId : String) (memoId : String) (rooms : List ChatRoom) :
    List ChatRoom :=
  match rooms.find? (fun r => r.id == roomId) with
  | some room => saveRoom { room with memos := room.memos.filter (fun m => m.id != memoId) } rooms
  | none => rooms

/-- Running a sequence of `createRoom` calls, threading the persisted
collection; returns the list of rooms returned to the callers and the final
collection. -/
def runCreateRooms : List (IdEnv × String × Option String) → List ChatRoom →
    List ChatRoom × List ChatRoom
  | [], rooms => ([], rooms)
  | c :: rest, rooms =>
    let r := createRoom c.1 c.2.1 c.2.2 rooms
    let acc := runCreateRooms rest r.2
    (r.1 :: acc.1, acc.2)

/-- The ids of the rooms in a persisted collection. -/
def roomIds (rooms : List ChatRoom) : List String := rooms.map ChatRoom.id

/-- Modelled from the spec: the chat-interface variant of `ChatRoom`
additionally carries the per-room `typing` map of spec section 3
(`typing: map<username, bool>`); the repository file declaring this field is
missing from the sources, which only contain its caller
(the chat interface reads `room.typing`). -/
structure ChatRoomT extends ChatRoom where
  typing : List (String × Bool)
deriving DecidableEq

/-- Modelled from the spec: the characters "unsafe for the storage key
namespace" that sanitization removes from usernames (the same set the
chat-interface caller in the sources strips when reading the `typing` map). -/
def unsafeKeyChars : List Char := ['.', '#', '$', '[', ']']

/-- Modelled from the spec: sanitizing a username for use as a `typing` key
strips the characters unsafe for the storage key namespace. -/
def sanitizeKey (username : String) : String :=
  String.mk (username.toList.filter (fun c => !(unsafeKeyChars.contains c)))

/-- Modelled from the spec: the find-or-append `saveRoom` of the missing
repository variant, with the same semantics as `saveRoom` over the extended
room record. -/
def saveRoomT (room : ChatRoomT) (rooms : List ChatRoomT) : List ChatRoomT :=
  match rooms.findIdx? (fun r => r.id == room.id) with
  | some existingIndex => rooms.set existingIndex room
  | none => rooms ++ [room]

/-- Insert-or-update of one key in an association map. -/
def upsert (key : String) (value : Bool) :
    List (String × Bool) → List (String × Bool)
  | [] => [(key, value)]
  | (k, v) :: rest =>
    if k == key then (key, value) :: rest else (k, v) :: upsert key value rest

/-- Modelled from the spec: `setTypingStatus(roomId, username, isTyping)`
(spec section 4.2) upserts a boolean under the sanitized username key in the
room's `typing` map, following the repository's load, locate by id, mutate,
save pattern with the silent no-op policy for a missing room; the defining
repository file is missing from the sources, which only import it. -/
def setTypingStatus (roomId username : String) (isTyping : Bool)
    (rooms : List ChatRoomT) : List ChatRoomT :=
  match rooms.find? (fun r => r.id == roomId) with
  | some room =>
    saveRoomT { room with typing := upsert (sanitizeKey username) isTyping room.typing } rooms
  | none => rooms

/-!
Generic combinators shared by the proofs.  `saveByKey` and `mutateByKey`
abstract the find-or-append write and the locate-mutate-save pattern over an
arbitrary element type with a string key; `saveRoom`, `saveRoomT` and every
repository mutation are definitionally instances of them.  `updateFirst` is
the proved net effect of the pattern on the collection: the first element
matching the key is rewritten, everything else stays in place.
-/

/-- Find-or-append write, keyed by `key`. -/
def saveByKey {α : Type} (key : α → String) (room : α) (rooms : List α) :
    List α :=
  match rooms.findIdx? (fun r => key r == key room) with
  | some existingIndex => rooms.set existingIndex room
  | none => rooms ++ [room]

/-- Locate by key, mutate with `f`, save; no-op when absent. -/
def mutateByKey {α : Type} (key : α → String) (roomId : String) (f : α → α)
    (rooms : List α) : List α :=
  match rooms.find? (fun r => key r == roomId) with
  | some room => saveByKey key (f room) rooms
  | none => rooms

/-- Rewrite the first element satisfying `p` with `f`; leave the rest alone. -/
def updateFirst {α : Type} (p : α → Bool) (f : α → α) : List α → List α
  | [] => []
  | x :: xs => if p x then f x :: xs else x :: updateFirst p f xs

theorem saveRoom_eq_saveByKey (room : ChatRoom) (rooms : List ChatRoom) :
    saveRoom room rooms = saveByKey ChatRoom.id room rooms := rfl

theorem saveRoomT_eq_saveByKey (room : ChatRoomT) (rooms : List ChatRoomT) :
    saveRoomT room rooms = saveByKey (fun r => r.toChatRoom.id) room rooms := rfl

theorem addMessage_eq_mutateByKey (roomId : String) (m : Message)
    (rooms : List ChatRoom) :
    addMessage roomId m rooms
      = mutateByKey ChatRoom.id roomId
          (fun r => { r with messages := r.messages ++ [m] }) rooms := by
  unfold addMessage mutateByKey
  cases h : rooms.find? (fun r => r.id == roomId) <;>
    simp [saveRoom_eq_saveByKey]

theorem addMemo_eq_mutateByKey (roomId : String) (memo : Memo)
    (rooms : List ChatRoom) :
    addMemo roomId memo rooms
      = mutateByKey ChatRoom.id roomId
          (fun r => { r with memos := r.memos ++ [memo] }) rooms := by
  unfold addMemo mutateByKey
  cases h : rooms.find? (fun r => r.id == roomId) <;>
    simp [saveRoom_eq_saveByKey]

theorem deleteMemo_eq_mutateByKey (roomId memoId : String)
    (rooms : List ChatRoom) :
    deleteMemo roomId memoId rooms
      = mutateByKey ChatRoom.id roomId
          (fun r => { r with memos := r.memos.filter (fun mm => mm.id != memoId) }) rooms := by
  unfold deleteMemo mutateByKey
  cases h : rooms.find? (fun r => r.id == roomId) <;>
    simp [saveRoom_eq_saveByKey]

theorem setTypingStatus_eq_mutateByKey (roomId username : String) (b : Bool)
    (rooms : List ChatRoomT) :
    setTypingStatus roomId username b rooms
      = mutateByKey (fun r => r.toChatRoom.id) roomId
          (fun r => { r with typing := upsert (sanitizeKey username) b r.typing }) rooms := by
  unfold setTypingStatus mutateByKey
  cases h : rooms.find? (fun r => r.id == roomId) <;>
    simp [saveRoomT_eq_saveByKey]

theorem updateFirst_cons {α : Type} (p : α → Bool) (f : α → α) (x : α)
    (xs : List α) :
    updateFirst p f (x :: xs) = if p x then f x :: xs else x :: updateFirst p f xs := rfl

theorem mutateByKey_of_none {α : Type} (key : α → String) (roomId : String)
    (f : α → α) {rooms : List α}
    (h : rooms.find? (fun r => key r == roomId) = none) :
    mutateByKey key roomId f rooms = rooms := by
  unfold mutateByKey; rw [h]

theorem mutateByKey_of_some {α : Type} (key : α → String) (roomId : String)
    (f : α → α) {rooms : List α} {room : α}
    (h : rooms.find? (fun r => key r == roomId) = some room) :
    mutateByKey key roomId f rooms = saveByKey key (f room) rooms := by
  unfold mutateByKey; rw [h]

theorem saveByKey_of_some {α : Type} (key : α → String) (room : α)
    {rooms : List α} {i : Nat}
    (h : rooms.findIdx? (fun r => key r == key room) = some i) :
    saveByKey key room rooms = rooms.set i room := by
  unfold saveByKey; rw [h]

theorem saveByKey_of_none {α : Type} (key : α → String) (room : α)
    {rooms : List α}
    (h : rooms.findIdx? (fun r => key r == key room) = none) :
    saveByKey key room rooms = rooms ++ [room] := by
  unfold saveByKey; rw [h]

theorem updateFirst_of_none {α : Type} (p : α → Bool) (f : α → α) :
    ∀ l : List α, l.find? p = none → updateFirst p f l = l := by
  intro l
  induction l with
  | nil => intro _; rfl
  | cons x xs ih =>
    intro h
    rw [List.find?_eq_none] at h
    have hx : p x = false := by
      have := h x (List.mem_cons_self x xs)
      simpa using this
    unfold updateFirst
    rw [hx]
    simp only [Bool.false_eq_true, if_false]
    rw [ih (List.find?_eq_none.mpr (fun y hy => h y (List.mem_cons_of_mem x hy)))]

theorem saveByKey_cons_of_ne {α : Type} (key : α → String) (room x : α)
    (xs : List α) (h : (key x == key room) = false) :
    saveByKey key room (x :: xs) = x :: saveByKey key room xs := by
  unfold saveByKey
  rw [List.findIdx?_cons, h]
  simp only [Bool.false_eq_true, if_false, List.findIdx?_succ]
  cases hidx : xs.findIdx? (fun r => key r == key room) with
  | none => simp [hidx]
  | some i => simp [hidx]

theorem mutateByKey_eq_updateFirst {α : Type} (key : α → String)
    (roomId : String) (f : α → α)
    (hf : ∀ r, (key r == roomId) = true → key (f r) = key r) :
    ∀ rooms : List α,
      mutateByKey key roomId f rooms
        = updateFirst (fun r => key r == roomId) f rooms := by
  intro rooms
  induction rooms with
  | nil => rfl
  | cons x xs ih =>
    by_cases hx : (key x == roomId) = true
    · have hfind : List.find? (fun r => key r == roomId) (x :: xs) = some x := by
        simp [hx]
      rw [mutateByKey_of_some key roomId f hfind]
      have hfx : key (f x) = key x := hf x hx
      have hidx : List.findIdx? (fun r => key r == key (f x)) (x :: xs) = some 0 := by
        rw [List.findIdx?_cons, hfx]
        simp
      rw [saveByKey_of_some key (f x) hidx, updateFirst_cons, if_pos hx]
      simp
    · have hx' : (key x == roomId) = false := by simpa using hx
      have hfind : List.find? (fun r => key r == roomId) (x :: xs)
          = List.find? (fun r => key r == roomId) xs := by
        simp [hx]
      rw [updateFirst_cons, if_neg hx]
      cases hfind2 : xs.find? (fun r => key r == roomId) with
      | none =>
        rw [mutateByKey_of_none key roomId f (hfind.trans hfind2)]
        rw [updateFirst_of_none _ f xs hfind2]
      | some room =>
        rw [mutateByKey_of_some key roomId f (hfind.trans hfind2)]
        have hroom : (key room == roomId) = true := by
          have := List.find?_some hfind2
          simpa using this
        have hkeyr : key room = roomId := by simpa using hroom
        have hkey : key (f room) = key room := hf room hroom
        have hxne : (key x == key (f room)) = false := by
          rw [hkey, hkeyr]; exact hx'
        rw [saveByKey_cons_of_ne key (f room) x xs hxne]
        rw [← ih, mutateByKey_of_some key roomId f hfind2]

theorem find?_updateFirst {α : Type} (p : α → Bool) (f : α → α)
    (hpf : ∀ x, p x = true → p (f x) = true) :
    ∀ (l : List α) (a : α), l.find? p = some a →
      (updateFirst p f l).find? p = some (f a) := by
  intro l
  induction l with
  | nil => intro a h; simp at h
  | cons x xs ih =>
    intro a h
    by_cases hx : p x = true
    · have hfind : List.find? p (x :: xs) = some x := by simp [hx]
      rw [hfind] at h
      injection h with h'
      subst h'
      rw [updateFirst_cons, if_pos hx]
      simp [hpf x hx]
    · have hfind : List.find? p (x :: xs) = List.find? p xs := by simp [hx]
      rw [hfind] at h
      rw [updateFirst_cons, if_neg hx]
      have hfind2 : List.find? p (x :: updateFirst p f xs)
          = List.find? p (updateFirst p f xs) := by simp [hx]
      rw [hfind2]
      exact ih a h

theorem updateFirst_updateFirst {α : Type} (p : α → Bool) (f : α → α)
    (hpf : ∀ x, p x = true → p (f x) = true)
    (hff : ∀ x, p x = true → f (f x) = f x) :
    ∀ l : List α, updateFirst p f (updateFirst p f l) = updateFirst p f l := by
  intro l
  induction l with
  | nil => rfl
  | cons x xs ih =>
    by_cases hx : p x = true
    · rw [updateFirst_cons, if_pos hx, updateFirst_cons, if_pos (hpf x hx),
        hff x hx]
    · rw [updateFirst_cons, if_neg hx, updateFirst_cons, if_neg hx, ih]

theorem map_updateFirst {α β : Type} (p : α → Bool) (f : α → α) (g : α → β)
    (hg : ∀ x, p x = true → g (f x) = g x) :
    ∀ l : List α, (updateFirst p f l).map g = l.map g := by
  intro l
  induction l with
  | nil => rfl
  | cons x xs ih =>
    by_cases hx : p x = true
    · unfold updateFirst
      rw [hx]
      simp [hg x hx]
    · have hxf : p x = false := by simpa using hx
      unfold updateFirst
      rw [hxf]
      simp [ih]

theorem filter_updateFirst {α : Type} (p : α → Bool) (f : α → α) (q : α → Bool)
    (h1 : ∀ x, p x = true → q x = false)
    (h2 : ∀ x, p x = true → q (f x) = false) :
    ∀ l : List α, (updateFirst p f l).filter q = l.filter q := by
  intro l
  induction l with
  | nil => rfl
  | cons x xs ih =>
    by_cases hx : p x = true
    · unfold updateFirst
      rw [hx]
      simp [List.filter_cons, h1 x hx, h2 x hx]
    · have hxf : p x = false := by simpa using hx
      unfold updateFirst
      rw [hxf]
      simp [List.filter_cons, ih]

theorem self_mem_saveByKey {α : Type} (key : α → String) (room : α) :
    ∀ rooms : List α, room ∈ saveByKey key room rooms := by
  intro rooms
  induction rooms with
  | nil => simp [saveByKey]
  | cons x xs ih =>
    by_cases hx : (key x == key room) = true
    · unfold saveByKey
      rw [List.findIdx?_cons, hx]
      simp
    · have hx' : (key x == key room) = false := by simpa using hx
      rw [saveByKey_cons_of_ne key room x xs hx']
      exact List.mem_cons_of_mem x ih

theorem map_key_saveByKey {α : Type} (key : α → String) (room : α) :
    ∀ rooms : List α, (saveByKey key room rooms).map key
      = if (rooms.map key).contains (key room) then rooms.map key
        else rooms.map key ++ [key room] := by
  intro rooms
  induction rooms with
  | nil => simp [saveByKey]
  | cons x xs ih =>
    by_cases hx : (key x == key room) = true
    · unfold saveByKey
      rw [List.findIdx?_cons, hx]
      simp only [if_true]
      have hxe : key x = key room := by simpa using hx
      simp [List.contains_cons, hxe]
    · have hx' : (key x == key room) = false := by simpa using hx
      rw [saveByKey_cons_of_ne key room x xs hx']
      have hne : key x ≠ key room := by simpa using hx'
      have hsym : (key room == key x) = false := by
        simpa using Ne.symm hne
      simp only [List.map_cons, List.contains_cons, hsym, Bool.false_or]
      by_cases hc : (xs.map key).contains (key room) = true
      · rw [if_pos hc, ih, if_pos hc]
      · rw [if_neg hc, ih, if_neg hc, List.cons_append]

theorem filter_saveByKey {α : Type} (key : α → String) (room : α) (q : α → Bool)
    (hroom : q room = false)
    (hq : ∀ x, (key x == key room) = true → q x = false) :
    ∀ rooms : List α, (saveByKey key room rooms).filter q = rooms.filter q := by
  intro rooms
  induction rooms with
  | nil => simp [saveByKey, hroom]
  | cons x xs ih =>
    by_cases hx : (key x == key room) = true
    · unfold saveByKey
      rw [List.findIdx?_cons, hx]
      simp [List.filter_cons, hroom, hq x hx]
    · have hx' : (key x == key room) = false := by simpa using hx
      rw [saveByKey_cons_of_ne key room x xs hx']
      simp [List.filter_cons, ih]

theorem lookup_upsert (k : String) (v : Bool) :
    ∀ l : List (String × Bool), (upsert k v l).lookup k = some v := by
  intro l
  induction l with
  | nil => simp [upsert]
  | cons kv rest ih =>
    obtain ⟨k', v'⟩ := kv
    unfold upsert
    by_cases h : (k' == k) = true
    · rw [h]
      simp
    · have h' : (k' == k) = false := by simpa using h
      rw [h']
      simp only [Bool.false_eq_true, if_false]
      rw [List.lookup_cons]
      have hne : (k == k') = false := by
        have : k' ≠ k := by simpa using h'
        simp [Ne.symm this]
      rw [hne]
      simp only [Bool.false_eq_true, if_false]
      exact ih

/-! Concrete sample data used by the witnesses. -/

/-- Sample text message. -/
def msgW : Message :=
  { id := "m1", senderName := "Ana", role := UserRole.PARTICIPANT,
    text := "hi", timestamp := 5, type := MessageType.text }

/-- Sample memo. -/
def memoW : Memo :=
  { id := "p1", title := "Plan A", content := "Details", createdAt := 3 }

/-- Sample room with id `r1`. -/
def roomW : ChatRoom :=
  { id := "r1", title := "Standup", password := none,
    messages := [], memos := [memoW], createdAt := 1, createdBy := "AI Bot" }

/-- Sample room with id `r2`. -/
def roomW2 : ChatRoom :=
  { id := "r2", title := "Secret", password := some "xyz",
    messages := [msgW], memos := [], createdAt := 2, createdBy := "AI Bot" }

/-- Sample typing-aware room with id `r1`. -/
def roomTW : ChatRoomT := { toChatRoom := roomW, typing := [] }

/-- Sample `createRoom` environment. -/
def envW : IdEnv :=
  { cryptoAvailable := true, uuid := "u-1", nowMs := 10, randSuffix := "abc",
    year := 2024, month0 := 0, day := 2, msgId := "m0" }

/-- A second environment whose UUID draw differs from `envW`. -/
def envW2 : IdEnv := { envW with uuid := "u-2" }

/-- Claim C1: if the persisted collection contains a room with id `r` (the one
`find?` locates), then after `addMessage r m` the collection holds, in that
room's place, the room with id `r` whose `messages` list is the old list with
`m` appended at the end — the last element is exactly `m` and all prior
messages are unchanged and in their original order. -/
theorem addMessage_append_preserves (rooms : List ChatRoom) (roomId : String)
    (m : Message) (room : ChatRoom)
    (h : rooms.find? (fun r => r.id == roomId) = some room) :
    room.id = roomId ∧
    (addMessage roomId m rooms).find? (fun r => r.id == roomId)
      = some { room with messages := room.messages ++ [m] } := by
  constructor
  · have := List.find?_some h
    simpa using this
  · rw [addMessage_eq_mutateByKey, mutateByKey_eq_updateFirst]
    · refine find?_updateFirst _ _ ?_ rooms room h
      exact fun x hx => hx
    · exact fun r _ => rfl

/-- Witness for C1 at a concrete two-room collection. -/
theorem addMessage_append_preserves_witness :
    roomW.id = "r1" ∧
    (addMessage "r1" msgW [roomW, roomW2]).find? (fun r => r.id == "r1")
      = some { roomW with messages := roomW.messages ++ [msgW] } :=
  addMessage_append_preserves [roomW, roomW2] "r1" msgW roomW (by decide)

/-- Claim C2: the store-level load is total — for every stored blob it returns
either the fail-soft empty collection or the successfully parsed rooms, never
propagating an exception — and whenever the blob is absent, empty, or rejected
by the parser, the result is exactly the empty collection. -/
theorem getRooms_failsoft (parse : String → Except String (List ChatRoom))
    (store : Option String) :
    (getRooms parse store = [] ∨
      ∃ s rooms, store = some s ∧ parse s = Except.ok rooms ∧
        getRooms parse store = rooms) ∧
    ((store = none ∨ store = some "" ∨
        ∃ s e, store = some s ∧ parse s = Except.error e) →
      getRooms parse store = []) := by
  constructor
  · cases store with
    | none => exact Or.inl rfl
    | some s =>
      by_cases hs : s = ""
      · exact Or.inl (by simp [getRooms, hs])
      · cases hp : parse s with
        | ok rooms =>
          exact Or.inr ⟨s, rooms, rfl, hp, by simp [getRooms, hs, hp]⟩
        | error e => exact Or.inl (by simp [getRooms, hs, hp])
  · rintro (h | h | ⟨s, e, hst, hp⟩)
    · subst h; rfl
    · subst h; simp [getRooms]
    · subst hst
      by_cases hs : s = ""
      · simp [getRooms, hs]
      · simp [getRooms, hs, hp]

/-- Witness for C2: a corrupt blob loads as the empty collection. -/
theorem getRooms_failsoft_witness :
    getRooms (fun _ => Except.error "corrupt") (some "oops") = [] :=
  (getRooms_failsoft (fun _ => Except.error "corrupt") (some "oops")).2
    (Or.inr (Or.inr ⟨"oops", "corrupt", rfl, rfl⟩))

/-- Claim C3: `addMessage`, `addMemo` and `deleteMemo` called with a room id
matching no room in the persisted collection are silent no-ops — the persisted
document is exactly the same after the call as before it. -/
theorem missingRoom_mutations_noop (rooms : List ChatRoom) (roomId : String)
    (m : Message) (memo : Memo) (memoId : String)
    (h : rooms.find? (fun r => r.id == roomId) = none) :
    addMessage roomId m rooms = rooms ∧
    addMemo roomId memo rooms = rooms ∧
    deleteMemo roomId memoId rooms = rooms := by
  refine ⟨?_, ?_, ?_⟩
  · rw [addMessage_eq_mutateByKey]
    exact mutateByKey_of_none _ _ _ h
  · rw [addMemo_eq_mutateByKey]
    exact mutateByKey_of_none _ _ _ h
  · rw [deleteMemo_eq_mutateByKey]
    exact mutateByKey_of_none _ _ _ h

/-- Witness for C3 at a concrete collection and an unknown room id. -/
theorem missingRoom_mutations_noop_witness :
    addMessage "zzz" msgW [roomW, roomW2] = [roomW, roomW2] ∧
    addMemo "zzz" memoW [roomW, roomW2] = [roomW, roomW2] ∧
    deleteMemo "zzz" "p1" [roomW, roomW2] = [roomW, roomW2] :=
  missingRoom_mutations_noop [roomW, roomW2] "zzz" msgW memoW "p1" (by decide)

/-- Claim C4: the modelled `setTypingStatus` upserts the boolean under the
sanitized username key (unsafe storage-key characters stripped) in the target
room's `typing` map whenever the room is present in the persisted collection,
and is a silent no-op when the room is absent; the sanitized key contains none
of the unsafe characters, and the upserted entry is readable back. -/
theorem setTypingStatus_spec (rooms : List ChatRoomT) (roomId username : String)
    (b : Bool) :
    (rooms.find? (fun r => r.id == roomId) = none →
      setTypingStatus roomId username b rooms = rooms) ∧
    (∀ room, rooms.find? (fun r => r.id == roomId) = some room →
      (setTypingStatus roomId username b rooms).find? (fun r => r.id == roomId)
        = some { room with
            typing := upsert (sanitizeKey username) b room.typing } ∧
      (upsert (sanitizeKey username) b room.typing).lookup
          (sanitizeKey username) = some b) ∧
    (sanitizeKey username).toList.all
      (fun c => !(unsafeKeyChars.contains c)) = true := by
  refine ⟨?_, ?_, ?_⟩
  · intro h
    rw [setTypingStatus_eq_mutateByKey]
    exact mutateByKey_of_none _ _ _ h
  · intro room h
    constructor
    · rw [setTypingStatus_eq_mutateByKey, mutateByKey_eq_updateFirst]
      · refine find?_updateFirst _ _ ?_ rooms room h
        exact fun x hx => hx
      · exact fun r _ => rfl
    · exact lookup_upsert _ _ _
  · rw [show (sanitizeKey username).toList
        = username.toList.filter (fun c => !(unsafeKeyChars.contains c)) from rfl]
    rw [List.all_eq_true]
    intro c hc
    exact (List.mem_filter.mp hc).2

/-- Witness for C4: upserting a typing flag for username `a.b` in a one-room
collection rewrites that room's typing map under the sanitized key. -/
theorem setTypingStatus_spec_witness :
    (setTypingStatus "r1" "a.b" true [roomTW]).find? (fun r => r.id == "r1")
      = some { roomTW with
          typing := upsert (sanitizeKey "a.b") true roomTW.typing } :=
  ((setTypingStatus_spec [roomTW] "r1" "a.b" true).2.1 roomTW (by decide)).1

/-- The rooms returned by a sequence of `createRoom` calls carry exactly the
ids generated from the per-call environments. -/
theorem runCreateRooms_ids (calls : List (IdEnv × String × Option String)) :
    ∀ rooms : List ChatRoom,
      (runCreateRooms calls rooms).1.map ChatRoom.id
        = calls.map (fun c => genRoomId c.1) := by
  induction calls with
  | nil => intro rooms; rfl
  | cons c rest ih =>
    intro rooms
    show ((createRoom c.1 c.2.1 c.2.2 rooms).1
        :: (runCreateRooms rest (createRoom c.1 c.2.1 c.2.2 rooms).2).1).map
        ChatRoom.id = _
    rw [List.map_cons, ih]
    rfl

/-- Counterexample to claim C5 as stated: two `createRoom` calls that draw the
same value from the id source return rooms with equal ids, so the ids of a
sequence of `createRoom` calls are not unconditionally pairwise distinct. -/
theorem createRoom_ids_can_collide :
    ¬ ((runCreateRooms [(envW, "A", none), (envW, "B", none)] []).1.map
        ChatRoom.id).Nodup := by decide

/-- Claim C5, amended: each `createRoom` call returns a room whose id is
exactly the generated id — the crypto UUID when `crypto.randomUUID` is
available, otherwise the `room_<timestamp>_<suffix>` fallback — and the ids of
a sequence of `createRoom` calls are pairwise distinct whenever the drawn
id-source values are pairwise distinct (the code cannot force distinctness of
the random draws themselves). -/
theorem createRoom_ids_distinct_of_entropy
    (calls : List (IdEnv × String × Option String)) (rooms : List ChatRoom)
    (h : (calls.map (fun c => genRoomId c.1)).Nodup) :
    ((runCreateRooms calls rooms).1.map ChatRoom.id).Nodup ∧
    ∀ env title pw s, ((createRoom env title pw s).1).id
      = if env.cryptoAvailable then env.uuid
        else "room_" ++ toString env.nowMs ++ "_" ++ env.randSuffix := by
  constructor
  · rw [runCreateRooms_ids]
    exact h
  · intro env title pw s
    rfl

/-- Witness for the amended C5: two calls with distinct UUID draws yield
distinct room ids. -/
theorem createRoom_ids_distinct_witness :
    ((runCreateRooms [(envW, "A", none), (envW2, "B", none)] []).1.map
      ChatRoom.id).Nodup :=
  (createRoom_ids_distinct_of_entropy [(envW, "A", none), (envW2, "B", none)]
    [] (by decide)).1

/-- Claim C6: after `deleteRoom r` the loaded collection contains no room whose
id is `r` — whether or not such a room existed — the match being decided on
the `String(...)` normalized form of the ids (the identity on string ids). -/
theorem deleteRoom_removes_id (rooms : List ChatRoom) (roomId : String) :
    ∀ room ∈ deleteRoom roomId rooms, room.id ≠ roomId := by
  intro room hmem
  unfold deleteRoom at hmem
  have hp := List.of_mem_filter hmem
  simpa [jsString] using hp

/-- Witness for C6: the surviving room of a concrete deletion indeed has a
different id. -/
theorem deleteRoom_removes_id_witness :
    roomW2 ∈ deleteRoom "r1" [roomW, roomW2] ∧ roomW2.id ≠ "r1" :=
  ⟨by decide, deleteRoom_removes_id [roomW, roomW2] "r1" roomW2 (by decide)⟩

theorem createRoom_snd (env : IdEnv) (title : String) (pw : Option String)
    (rooms : List ChatRoom) :
    (createRoom env title pw rooms).2
      = saveRoom (createRoom env title pw rooms).1 rooms := rfl

/-- Claim C7: pairwise distinctness of room ids is an invariant of every
repository operation — if the persisted collection has no duplicate ids before
`saveRoom`, `createRoom`, `deleteRoom`, `addMessage`, `addMemo` or
`deleteMemo`, it has none after, because `saveRoom` replaces the entry with a
matching id and appends only when none matches. -/
theorem repoOps_preserve_nodup_ids (rooms : List ChatRoom)
    (h : (roomIds rooms).Nodup) (room : ChatRoom) (env : IdEnv)
    (title : String) (pw : Option String) (roomId : String) (m : Message)
    (memo : Memo) (memoId : String) :
    (roomIds (saveRoom room rooms)).Nodup ∧
    (roomIds ((createRoom env title pw rooms).2)).Nodup ∧
    (roomIds (deleteRoom roomId rooms)).Nodup ∧
    (roomIds (addMessage roomId m rooms)).Nodup ∧
    (roomIds (addMemo roomId memo rooms)).Nodup ∧
    (roomIds (deleteMemo roomId memoId rooms)).Nodup := by
  have hsave : ∀ rm : ChatRoom, (roomIds (saveRoom rm rooms)).Nodup := by
    intro rm
    unfold roomIds at h ⊢
    rw [saveRoom_eq_saveByKey, map_key_saveByKey]
    by_cases hc : (rooms.map ChatRoom.id).contains rm.id = true
    · rw [if_pos hc]
      exact h
    · rw [if_neg hc]
      have hnotmem : rm.id ∉ rooms.map ChatRoom.id := by simpa using hc
      simp [List.nodup_append, h, hnotmem]
  refine ⟨hsave room, ?_, ?_, ?_, ?_, ?_⟩
  · rw [createRoom_snd]
    exact hsave _
  · unfold roomIds at h ⊢
    unfold deleteRoom
    exact List.Nodup.sublist ((List.filter_sublist rooms).map ChatRoom.id) h
  · rw [addMessage_eq_mutateByKey, mutateByKey_eq_updateFirst]
    · unfold roomIds at h ⊢
      rw [map_updateFirst]
      · exact h
      · exact fun x _ => rfl
    · exact fun r _ => rfl
  · rw [addMemo_eq_mutateByKey, mutateByKey_eq_updateFirst]
    · unfold roomIds at h ⊢
      rw [map_updateFirst]
      · exact h
      · exact fun x _ => rfl
    · exact fun r _ => rfl
  · rw [deleteMemo_eq_mutateByKey, mutateByKey_eq_updateFirst]
    · unfold roomIds at h ⊢
      rw [map_updateFirst]
      · exact h
      · exact fun x _ => rfl
    · exact fun r _ => rfl

/-- Witness for C7: saving a fresh room into a duplicate-free collection keeps
the ids duplicate-free. -/
theorem repoOps_preserve_nodup_ids_witness :
    (roomIds (saveRoom roomW [roomW2])).Nodup :=
  (repoOps_preserve_nodup_ids [roomW2] (by decide) roomW envW "t" none "r2"
    msgW memoW "p1").1

/-- Claim C8: `createRoom` returns a room seeded with exactly one synthetic
system message whose text is the localized creation-date banner, an empty
memos list, and `createdBy` fixed to the bot identity; the returned room is
persisted and is a member of the collection a subsequent load yields. -/
theorem createRoom_seeds (env : IdEnv) (title : String) (pw : Option String)
    (rooms : List ChatRoom) :
    (createRoom env title pw rooms).1.messages
        = [{ id := env.msgId, senderName := "System", role := UserRole.ADMIN,
             text := dateText env, timestamp := env.nowMs,
             type := MessageType.system }] ∧
    (createRoom env title pw rooms).1.memos = [] ∧
    (createRoom env title pw rooms).1.createdBy = "AI Bot" ∧
    (createRoom env title pw rooms).1 ∈ (createRoom env title pw rooms).2 := by
  refine ⟨rfl, rfl, rfl, ?_⟩
  rw [createRoom_snd, saveRoom_eq_saveByKey]
  exact self_mem_saveByKey _ _ rooms

/-- Claim C9: `deleteMemo` is idempotent — deleting the same memo id twice in
succession leaves the persisted document, and hence the target room's memos
list, in exactly the state a single call produces. -/
theorem deleteMemo_idempotent (rooms : List ChatRoom) (roomId memoId : String) :
    deleteMemo roomId memoId (deleteMemo roomId memoId rooms)
      = deleteMemo roomId memoId rooms := by
  have heq := mutateByKey_eq_updateFirst ChatRoom.id roomId
    (fun r => { r with memos := r.memos.filter (fun mm => mm.id != memoId) })
    (fun r _ => rfl)
  simp only [deleteMemo_eq_mutateByKey, heq]
  refine updateFirst_updateFirst _ _ ?_ ?_ rooms
  · exact fun x hx => hx
  · intro x hx
    simp [List.filter_filter, Bool.and_self]

/-- The rooms of the collection whose id differs from the given one. -/
def othersOf (roomId : String) (rooms : List ChatRoom) : List ChatRoom :=
  rooms.filter (fun r => !(r.id == roomId))

/-- Claim C10: frame property — `addMessage`, `addMemo`, `deleteMemo`
targeting room id `r`, and `saveRoom` of a room whose id is `r`, leave every
room of the persisted document whose id differs from `r` exactly unchanged
(same rooms, same order, same multiplicity). -/
theorem mutations_frame_other_rooms (rooms : List ChatRoom) (roomId : String)
    (m : Message) (memo : Memo) (memoId : String) (room : ChatRoom)
    (h : room.id = roomId) :
    othersOf roomId (saveRoom room rooms) = othersOf roomId rooms ∧
    othersOf roomId (addMessage roomId m rooms) = othersOf roomId rooms ∧
    othersOf roomId (addMemo roomId memo rooms) = othersOf roomId rooms ∧
    othersOf roomId (deleteMemo roomId memoId rooms) = othersOf roomId rooms := by
  refine ⟨?_, ?_, ?_, ?_⟩
  · unfold othersOf
    rw [saveRoom_eq_saveByKey]
    apply filter_saveByKey
    · show (!(room.id == roomId)) = false
      rw [h]
      simp
    · intro x hx
      have hxe : x.id = room.id := by simpa using hx
      show (!(x.id == roomId)) = false
      rw [hxe, h]
      simp
  · unfold othersOf
    rw [addMessage_eq_mutateByKey, mutateByKey_eq_updateFirst]
    · apply filter_updateFirst
      · intro x hx
        have hx' : (x.id == roomId) = true := hx
        show (!(x.id == roomId)) = false
        rw [hx']
        rfl
      · intro x hx
        have hx' : (x.id == roomId) = true := hx
        show (!(x.id == roomId)) = false
        rw [hx']
        rfl
    · exact fun r _ => rfl
  · unfold othersOf
    rw [addMemo_eq_mutateByKey, mutateByKey_eq_updateFirst]
    · apply filter_updateFirst
      · intro x hx
        have hx' : (x.id == roomId) = true := hx
        show (!(x.id == roomId)) = false
        rw [hx']
        rfl
      · intro x hx
        have hx' : (x.id == roomId) = true := hx
        show (!(x.id == roomId)) = false
        rw [hx']
        rfl
    · exact fun r _ => rfl
  · unfold othersOf
    rw [deleteMemo_eq_mutateByKey, mutateByKey_eq_updateFirst]
    · apply filter_updateFirst
      · intro x hx
        have hx' : (x.id == roomId) = true := hx
        show (!(x.id == roomId)) = false
        rw [hx']
        rfl
      · intro x hx
        have hx' : (x.id == roomId) = true := hx
        show (!(x.id == roomId)) = false
        rw [hx']
        rfl
    · exact fun r _ => rfl

/-- Witness for C10 at a concrete collection. -/
theorem mutations_frame_other_rooms_witness :
    othersOf "r1" (saveRoom roomW [roomW, roomW2])
        = othersOf "r1" [roomW, roomW2] ∧
    othersOf "r1" (addMessage "r1" msgW [roomW, roomW2])
        = othersOf "r1" [roomW, roomW2] ∧
    othersOf "r1" (addMemo "r1" memoW [roomW, roomW2])
        = othersOf "r1" [roomW, roomW2] ∧
    othersOf "r1" (deleteMemo "r1" "p1" [roomW, roomW2])
        = othersOf "r1" [roomW, roomW2] :=
  mutations_frame_other_rooms [roomW, roomW2] "r1" msgW memoW "p1" roomW
    (by decide)
